import Mathlib

/-!
Verification of the `simple-notepad` editor (`src/main.py`) against its
natural-language specification.  Each section shallowly embeds one piece of
the Python source as executable Lean definitions and proves the spec's
claims about it.
-/

namespace Notepad

/-! ## Gutter width (`CodeEditor.lineNumberAreaWidth`, main.py lines 57-64)

The Python code is:
```
digits = 1
max_val = max(1, self.blockCount())
while max_val >= 10:
    max_val //= 10
    digits += 1
space = 24 + self.fontMetrics().horizontalAdvance('9') * digits
return space
```
`digitLoop` embeds the `while` loop (it is entered with `max_val ≥ 1`);
`lineNumberAreaWidth` takes the advance of the glyph 9 as a parameter
`adv9` since it comes from the font. -/

def digitLoop (m : Nat) : Nat :=
  if 10 ≤ m then digitLoop (m / 10) + 1 else 1
termination_by m
decreasing_by
  exact Nat.div_lt_self (by omega) (by omega)

def lineNumberAreaWidth (adv9 : Nat) (blockCount : Nat) : Nat :=
  24 + adv9 * digitLoop (max 1 blockCount)

theorem digitLoop_of_lt {m : Nat} (h : m < 10) : digitLoop m = 1 := by
  rw [digitLoop]
  simp [Nat.not_le.mpr h]

theorem digitLoop_of_ge {m : Nat} (h : 10 ≤ m) :
    digitLoop m = digitLoop (m / 10) + 1 := by
  rw [digitLoop]
  simp [h]

/-- The loop computes one more than the base-10 logarithm. -/
theorem digitLoop_eq_log (m : Nat) (hm : 1 ≤ m) :
    digitLoop m = Nat.log 10 m + 1 := by
  induction m using Nat.strong_induction_on with
  | _ m ih =>
    by_cases h : 10 ≤ m
    · rw [digitLoop_of_ge h]
      have hdiv : 1 ≤ m / 10 := (Nat.le_div_iff_mul_le (by omega)).mpr (by omega)
      rw [ih (m / 10) (Nat.div_lt_self (by omega) (by omega)) hdiv]
      have hpos : 0 < Nat.log 10 m := Nat.log_pos (by omega) h
      have hstep := Nat.log_div_base 10 m
      omega
    · rw [digitLoop_of_lt (by omega), Nat.log_of_lt (by omega)]

/-- The loop agrees with the length of the decimal representation. -/
theorem digitLoop_eq_digits_len (m : Nat) (hm : 1 ≤ m) :
    digitLoop m = (Nat.digits 10 m).length := by
  rw [digitLoop_eq_log m hm, Nat.digits_len 10 m (by omega) (by omega)]

theorem sum_map_le_mul_length (w : Nat → Nat) (c : Nat) (l : List Nat)
    (h : ∀ d ∈ l, w d ≤ c) : (l.map w).sum ≤ c * l.length := by
  induction l with
  | nil => simp
  | cons a t ih =>
    simp only [List.map_cons, List.sum_cons, List.length_cons]
    have ha := h a (List.mem_cons_self a t)
    have ht := ih fun d hd => h d (List.mem_cons_of_mem a hd)
    calc w a + (t.map w).sum ≤ c + c * t.length := Nat.add_le_add ha ht
      _ = c * (t.length + 1) := by ring

/-- C3: for block counts `N ≥ 1` the gutter width is monotone
non-decreasing in `N`, and it changes between `N` and `N + 1` only when the
decimal digit count of the block count changes. -/
theorem C3_gutter_width_monotone_digit_boundaries (adv9 N : Nat) (hN : 1 ≤ N) :
    lineNumberAreaWidth adv9 N ≤ lineNumberAreaWidth adv9 (N + 1) ∧
    (lineNumberAreaWidth adv9 (N + 1) ≠ lineNumberAreaWidth adv9 N →
      (Nat.digits 10 (N + 1)).length ≠ (Nat.digits 10 N).length) := by
  have hmaxN : max 1 N = N := by omega
  have hmaxN1 : max 1 (N + 1) = N + 1 := by omega
  unfold lineNumberAreaWidth
  rw [hmaxN, hmaxN1, digitLoop_eq_digits_len N hN,
    digitLoop_eq_digits_len (N + 1) (by omega)]
  constructor
  · have hlog : Nat.log 10 N ≤ Nat.log 10 (N + 1) :=
      Nat.log_mono_right (by omega)
    have h1 : (Nat.digits 10 N).length = Nat.log 10 N + 1 :=
      Nat.digits_len 10 N (by omega) (by omega)
    have h2 : (Nat.digits 10 (N + 1)).length = Nat.log 10 (N + 1) + 1 :=
      Nat.digits_len 10 (N + 1) (by omega) (by omega)
    have : (Nat.digits 10 N).length ≤ (Nat.digits 10 (N + 1)).length := by omega
    exact Nat.add_le_add_left (Nat.mul_le_mul_left adv9 this) 24
  · intro hne heq
    exact hne (by rw [heq])

/-- C3 witness: instantiated at `adv9 = 7`, `N = 9` (a digit boundary). -/
theorem C3_witness :
    lineNumberAreaWidth 7 9 ≤ lineNumberAreaWidth 7 10 ∧
    (lineNumberAreaWidth 7 10 ≠ lineNumberAreaWidth 7 9 →
      (Nat.digits 10 10).length ≠ (Nat.digits 10 9).length) :=
  C3_gutter_width_monotone_digit_boundaries 7 9 (by decide)

/-- C4: the gutter width equals the fixed 24-pixel padding plus the advance
of the digit glyph 9 times the decimal digit count of `max 1 N`; and for
any per-digit glyph widths bounded by that advance (as in a monospace
font), the width of the largest 1-based line number's digit string plus the
padding fits inside the returned width. -/
theorem C4_gutter_width_formula (adv9 N : Nat) :
    lineNumberAreaWidth adv9 N = 24 + adv9 * (Nat.digits 10 (max 1 N)).length ∧
    ∀ w : Nat → Nat, (∀ d, d < 10 → w d ≤ adv9) →
      24 + ((Nat.digits 10 (max 1 N)).map w).sum ≤ lineNumberAreaWidth adv9 N := by
  have hmax : 1 ≤ max 1 N := le_max_left 1 N
  have hformula : lineNumberAreaWidth adv9 N
      = 24 + adv9 * (Nat.digits 10 (max 1 N)).length := by
    unfold lineNumberAreaWidth
    rw [digitLoop_eq_digits_len (max 1 N) hmax]
  refine ⟨hformula, fun w hw => ?_⟩
  rw [hformula]
  have hdig : ∀ d ∈ Nat.digits 10 (max 1 N), w d ≤ adv9 := fun d hd =>
    hw d (Nat.digits_lt_base (by omega) hd)
  exact Nat.add_le_add_left (sum_map_le_mul_length w adv9 _ hdig) 24

/-- C4 witness: instantiated at `adv9 = 7`, `N = 123`, constant glyph
widths `7`. -/
theorem C4_witness :
    lineNumberAreaWidth 7 123 = 24 + 7 * (Nat.digits 10 (max 1 123)).length ∧
    24 + ((Nat.digits 10 (max 1 123)).map (fun _ => 7)).sum ≤
      lineNumberAreaWidth 7 123 :=
  ⟨(C4_gutter_width_formula 7 123).1,
    (C4_gutter_width_formula 7 123).2 (fun _ => 7) (fun _ _ => Nat.le_refl 7)⟩

/-! ## Gutter paint loop (`CodeEditor.lineNumberAreaPaintEvent`, main.py
lines 84-111)

The Python loop is:
```
block = self.firstVisibleBlock()
blockNumber = block.blockNumber()
top = self.blockBoundingGeometry(block).translated(self.contentOffset()).top()
bottom = top + self.blockBoundingRect(block).height()
while block.isValid() and top <= event.rect().bottom():
    if block.isVisible() and bottom >= event.rect().top():
        number = str(blockNumber + 1)
        painter.drawText(..., number)
    block = block.next()
    top = bottom
    bottom = top + self.blockBoundingRect(block).height()
    blockNumber += 1
```
A `Block` keeps the layout data the loop consults: its height and its
visibility flag.  `paintLoop` walks the remaining blocks (the iterator),
carrying the iterator's document index `idx`, the separate `blockNumber`
counter `n`, and the running `top` coordinate; `rTop`/`rBottom` are the
repaint region's bounds (`event.rect()`).  Each draw is recorded as a
`DrawnNumber`. -/

structure Block where
  height : Int
  visible : Bool
  deriving DecidableEq

structure DrawnNumber where
  idx : Nat
  text : List Char
  top : Int
  bottom : Int
  blk : Block
  deriving DecidableEq

def paintLoop : List Block → Nat → Nat → Int → Int → Int → List DrawnNumber
  | [], _, _, _, _, _ => []
  | b :: rest, idx, n, top, rTop, rBottom =>
    if top ≤ rBottom then
      let bottom := top + b.height
      (if b.visible = true ∧ rTop ≤ bottom then
        [⟨idx, Nat.toDigits 10 (n + 1), top, bottom, b⟩]
      else []) ++ paintLoop rest (idx + 1) (n + 1) bottom rTop rBottom
    else []

/-- Entry point of the paint routine: iteration starts at the first
visible block, whose `blockNumber()` equals its document index, so the
iterator index and the counter start equal. -/
def lineNumberAreaPaintEvent (doc : List Block) (firstVisible : Nat)
    (top0 rTop rBottom : Int) : List DrawnNumber :=
  paintLoop (doc.drop firstVisible) firstVisible firstVisible top0 rTop rBottom

/-- When the counter starts equal to the iterator index, every drawn text
is the decimal representation of the drawn block's 0-based index plus 1. -/
theorem paintLoop_text_eq (blocks : List Block) :
    ∀ idx top rTop rBottom, ∀ e ∈ paintLoop blocks idx idx top rTop rBottom,
      e.text = Nat.toDigits 10 (e.idx + 1) := by
  induction blocks with
  | nil =>
    intro idx top rTop rBottom e he
    simp [paintLoop] at he
  | cons b rest ih =>
    intro idx top rTop rBottom e he
    rw [paintLoop] at he
    by_cases htop : top ≤ rBottom
    · rw [if_pos htop] at he
      rcases List.mem_append.mp he with h1 | h2
      · by_cases hvis : b.visible = true ∧ rTop ≤ top + b.height
        · rw [if_pos hvis] at h1
          rcases List.mem_singleton.mp h1 with rfl
          rfl
        · rw [if_neg hvis] at h1
          exact absurd h1 (List.not_mem_nil e)
      · exact ih (idx + 1) _ rTop rBottom e h2
    · rw [if_neg htop] at he
      exact absurd he (List.not_mem_nil e)

/-- C5: every number string drawn by the gutter paint routine is the
decimal representation of the drawn block's 0-based index plus 1, i.e. the
block's 1-based position in the document. -/
theorem C5_gutter_number_eq_one_based_index (doc : List Block)
    (firstVisible : Nat) (top0 rTop rBottom : Int) (e : DrawnNumber)
    (he : e ∈ lineNumberAreaPaintEvent doc firstVisible top0 rTop rBottom) :
    e.text = Nat.toDigits 10 (e.idx + 1) :=
  paintLoop_text_eq (doc.drop firstVisible) firstVisible top0 rTop rBottom e he

def sampleBlock : Block := ⟨10, true⟩

def sampleEntry : DrawnNumber := ⟨0, Nat.toDigits 10 1, 0, 10, sampleBlock⟩

/-- C5 witness: a one-block document painted from the top. -/
theorem C5_witness :
    sampleEntry ∈ lineNumberAreaPaintEvent [sampleBlock] 0 0 0 5 ∧
    sampleEntry.text = Nat.toDigits 10 (sampleEntry.idx + 1) :=
  ⟨by decide, C5_gutter_number_eq_one_based_index [sampleBlock] 0 0 0 5
    sampleEntry (by decide)⟩

/-- Every drawn entry was checked against the repaint region and the
visibility flag, and its index addresses its block in the document. -/
theorem paintLoop_drawn_in_region (doc : List Block) :
    ∀ blocks idx n top rTop rBottom, doc.drop idx = blocks →
      ∀ e ∈ paintLoop blocks idx n top rTop rBottom,
        rTop ≤ e.bottom ∧ e.top ≤ rBottom ∧ e.blk.visible = true ∧
          doc[e.idx]? = some e.blk := by
  intro blocks
  induction blocks with
  | nil =>
    intro idx n top rTop rBottom _ e he
    simp [paintLoop] at he
  | cons b rest ih =>
    intro idx n top rTop rBottom hdrop e he
    have hget : doc[idx]? = some b := by
      have h0 : (doc.drop idx)[0]? = some b := by rw [hdrop]; simp
      rwa [List.getElem?_drop, Nat.add_zero] at h0
    have hrest : doc.drop (idx + 1) = rest := by
      have h1 : (doc.drop idx).drop 1 = rest := by rw [hdrop]; rfl
      rw [List.drop_drop] at h1
      exact h1
    rw [paintLoop] at he
    by_cases htop : top ≤ rBottom
    · rw [if_pos htop] at he
      rcases List.mem_append.mp he with h1 | h2
      · by_cases hvis : b.visible = true ∧ rTop ≤ top + b.height
        · rw [if_pos hvis] at h1
          rcases List.mem_singleton.mp h1 with rfl
          exact ⟨hvis.2, htop, hvis.1, hget⟩
        · rw [if_neg hvis] at h1
          exact absurd h1 (List.not_mem_nil e)
      · exact ih (idx + 1) (n + 1) _ rTop rBottom hrest e h2
    · rw [if_neg htop] at he
      exact absurd he (List.not_mem_nil e)

/-- C8: the paint routine draws only blocks that are visible and whose
bottom edge is at or below the top of the repaint region, every drawn
block's span touches the repaint region (so no block entirely outside it
is drawn), and the loop stops drawing as soon as a block's top is below
the region's bottom. -/
theorem C8_paint_viewport_culling (doc : List Block) (firstVisible : Nat)
    (top0 rTop rBottom : Int) :
    (∀ e ∈ lineNumberAreaPaintEvent doc firstVisible top0 rTop rBottom,
      rTop ≤ e.bottom ∧ e.top ≤ rBottom ∧ e.blk.visible = true ∧
        doc[e.idx]? = some e.blk) ∧
    (∀ blocks idx n top, rBottom < top →
      paintLoop blocks idx n top rTop rBottom = []) := by
  constructor
  · exact fun e he =>
      paintLoop_drawn_in_region doc (doc.drop firstVisible) firstVisible
        firstVisible top0 rTop rBottom rfl e he
  · intro blocks idx n top hlt
    cases blocks with
    | nil => rfl
    | cons b rest =>
      rw [paintLoop, if_neg (not_le.mpr hlt)]

/-- C8 witness: the sample document's drawn entry is inside the region,
and a loop entered below the region draws nothing. -/
theorem C8_witness :
    ((0 : Int) ≤ sampleEntry.bottom ∧ sampleEntry.top ≤ (5 : Int) ∧
      sampleEntry.blk.visible = true ∧
      ([sampleBlock] : List Block)[sampleEntry.idx]? = some sampleEntry.blk) ∧
    paintLoop [sampleBlock] 0 0 6 0 5 = [] :=
  ⟨(C8_paint_viewport_culling [sampleBlock] 0 0 0 5).1 sampleEntry (by decide),
    (C8_paint_viewport_culling [sampleBlock] 0 0 0 5).2 [sampleBlock] 0 0 6
      (by decide)⟩

/-! ## Current-line highlight (`CodeEditor.highlightCurrentLine`, main.py
lines 113-126)

The Python code builds an empty list, and when the editor is not
read-only appends one `ExtraSelection` whose format has the theme's line
color as background and the `FullWidthSelection` property set, and whose
cursor is `self.textCursor()` with `clearSelection()` applied; it then
replaces the editor's extra selections with that list.  A `TextCursor`
keeps the position and the selection anchor; `clearSelection` moves the
anchor to the position, exactly as in Qt. -/

structure TextCursor where
  position : Nat
  anchor : Nat
  deriving DecidableEq

def clearSelection (c : TextCursor) : TextCursor := ⟨c.position, c.position⟩

structure RGBA where
  r : Nat
  g : Nat
  b : Nat
  a : Nat
  deriving DecidableEq

structure ExtraSelection where
  cursor : TextCursor
  fullWidth : Bool
  bg : RGBA
  deriving DecidableEq

structure CodeEditorState where
  readOnly : Bool
  cursor : TextCursor
  extraSelections : List ExtraSelection
  deriving DecidableEq

def darkLineColor : RGBA := ⟨255, 255, 255, 10⟩

def lightLineColor : RGBA := ⟨0, 0, 0, 8⟩

def highlightCurrentLine (s : CodeEditorState) (isDark : Bool) :
    CodeEditorState :=
  let sels : List ExtraSelection :=
    if s.readOnly = false then
      let lineColor := if isDark = true then darkLineColor else lightLineColor
      [{ cursor := clearSelection s.cursor, fullWidth := true,
         bg := lineColor }]
    else []
  { s with extraSelections := sels }

/-- C6: after `highlightCurrentLine`, a writable editor's extra-selection
set is exactly one full-width selection whose cursor sits at the caret's
position with the selection cleared (anchor = position, so it spans only
the caret's block), and a read-only editor's extra-selection set is empty. -/
theorem C6_highlight_single_caret_block (s : CodeEditorState) (isDark : Bool) :
    (s.readOnly = false →
      (highlightCurrentLine s isDark).extraSelections =
        [⟨⟨s.cursor.position, s.cursor.position⟩, true,
          if isDark = true then darkLineColor else lightLineColor⟩]) ∧
    (s.readOnly = true →
      (highlightCurrentLine s isDark).extraSelections = []) := by
  constructor
  · intro h
    simp [highlightCurrentLine, clearSelection, h]
  · intro h
    simp [highlightCurrentLine, h]

/-- C6 witness: a caret at position 5 with a live selection back to
anchor 2 yields a single cleared full-width selection; a read-only editor
yields none. -/
theorem C6_witness :
    (highlightCurrentLine ⟨false, ⟨5, 2⟩, []⟩ true).extraSelections =
      [⟨⟨5, 5⟩, true, if true = true then darkLineColor else lightLineColor⟩] ∧
    (highlightCurrentLine ⟨true, ⟨5, 2⟩, []⟩ true).extraSelections = [] :=
  ⟨(C6_highlight_single_caret_block ⟨false, ⟨5, 2⟩, []⟩ true).1 rfl,
    (C6_highlight_single_caret_block ⟨true, ⟨5, 2⟩, []⟩ true).2 rfl⟩

/-! ## Zoom level (`EditorInterface.zoomIn` / `zoomOut`, main.py lines
301-309)

`self.zoomLevel` starts at 100; `zoomIn` does `self.zoomLevel += 10`,
`zoomOut` does `self.zoomLevel = max(10, self.zoomLevel - 10)`. -/

inductive ZoomOp where
  | zin : ZoomOp
  | zout : ZoomOp

def zoomInLevel (z : Int) : Int := z + 10

def zoomOutLevel (z : Int) : Int := max 10 (z - 10)

def initialZoomLevel : Int := 100

def applyZoomOps (ops : List ZoomOp) (z : Int) : Int :=
  ops.foldl (fun acc op =>
    match op with
    | ZoomOp.zin => zoomInLevel acc
    | ZoomOp.zout => zoomOutLevel acc) z

theorem zoom_invariant_step (ops : List ZoomOp) :
    ∀ z : Int, 10 ≤ z → z % 10 = 0 →
      10 ≤ applyZoomOps ops z ∧ applyZoomOps ops z % 10 = 0 := by
  induction ops with
  | nil => intro z hz hm; exact ⟨hz, hm⟩
  | cons op rest ih =>
    intro z hz hm
    cases op with
    | zin =>
      have hstep : applyZoomOps (ZoomOp.zin :: rest) z
          = applyZoomOps rest (zoomInLevel z) := rfl
      rw [hstep]
      exact ih (zoomInLevel z) (by unfold zoomInLevel; omega)
        (by unfold zoomInLevel; omega)
    | zout =>
      have hstep : applyZoomOps (ZoomOp.zout :: rest) z
          = applyZoomOps rest (zoomOutLevel z) := rfl
      rw [hstep]
      have hlo : 10 ≤ zoomOutLevel z := le_max_left 10 (z - 10)
      have hmod : zoomOutLevel z % 10 = 0 := by
        unfold zoomOutLevel
        rcases le_total 10 (z - 10) with h | h
        · rw [max_eq_right h]; omega
        · rw [max_eq_left h]; decide
      exact ih (zoomOutLevel z) hlo hmod

/-- C10: in every state reachable from the initial zoom level 100 by any
sequence of zoom-in and zoom-out operations, the zoom level is at least 10
and is a multiple of 10. -/
theorem C10_zoom_level_invariant (ops : List ZoomOp) :
    10 ≤ applyZoomOps ops initialZoomLevel ∧
      applyZoomOps ops initialZoomLevel % 10 = 0 :=
  zoom_invariant_step ops initialZoomLevel (by decide) (by decide)

/-! ## Notifications (`InfoBar` calls in main.py)

`warning` carries the search text shown in the not-found message
(`searchNext`, line 324); `success` and `error` carry a file path and an
exception code for the open/save notifications (lines 363-369). -/

inductive Notif where
  | warning : List Char → Notif
  | success : Nat → Notif
  | error : Nat → Notif
  deriving DecidableEq

/-! ## Search (`EditorInterface.searchNext` / `searchPrev`, main.py lines
316-332)

The Python code is:
```
def searchNext(self):
    text = self.searchEdit.text()
    if not text: return
    found = self.editor.find(text)
    if not found:
        self.editor.moveCursor(self.editor.textCursor().Start)
        found = self.editor.find(text)
        if not found:
            InfoBar.warning("検索", ..., parent=self)

def searchPrev(self):
    text = self.searchEdit.text()
    if not text: return
    found = self.editor.find(text, QTextEdit.FindBackward)
    if not found:
        self.editor.moveCursor(self.editor.textCursor().End)
        found = self.editor.find(text, QTextEdit.FindBackward)
```
Qt's `QPlainTextEdit.find` looks for the next occurrence after (resp.
before, with `FindBackward`) the cursor and moves the cursor onto the
match when found; `matchesAt doc pat i` tests an occurrence of `pat` at
offset `i` of the document. -/

def matchesAt (doc pat : List Char) (i : Nat) : Bool :=
  decide ((doc.drop i).take pat.length = pat)

def findFwd (doc pat : List Char) (start : Nat) : Option Nat :=
  (List.range (doc.length + 1)).find? fun j =>
    decide (start ≤ j) && matchesAt doc pat j

def findBwd (doc pat : List Char) (cursor : Nat) : Option Nat :=
  ((List.range (doc.length + 1)).filter fun j =>
    decide (j + pat.length ≤ cursor) && matchesAt doc pat j).getLast?

structure SearchState where
  doc : List Char
  searchText : List Char
  cursorPos : Nat
  notifs : List Notif
  deriving DecidableEq

def editorFindFwd (s : SearchState) : SearchState × Bool :=
  match findFwd s.doc s.searchText s.cursorPos with
  | some j => ({ s with cursorPos := j + s.searchText.length }, true)
  | none => (s, false)

def editorFindBwd (s : SearchState) : SearchState × Bool :=
  match findBwd s.doc s.searchText s.cursorPos with
  | some j => ({ s with cursorPos := j }, true)
  | none => (s, false)

/-- Forward search; the second component counts the `find` attempts made. -/
def searchNext (s : SearchState) : SearchState × Nat :=
  if s.searchText = [] then (s, 0)
  else
    let r1 := editorFindFwd s
    if r1.2 = true then (r1.1, 1)
    else
      let s2 := { r1.1 with cursorPos := 0 }
      let r2 := editorFindFwd s2
      if r2.2 = true then (r2.1, 2)
      else ({ r2.1 with notifs := r2.1.notifs ++ [Notif.warning s.searchText] }, 2)

/-- Backward search; the second component counts the `find` attempts made.
The source shows no notification when the retry from the end also fails. -/
def searchPrev (s : SearchState) : SearchState × Nat :=
  if s.searchText = [] then (s, 0)
  else
    let r1 := editorFindBwd s
    if r1.2 = true then (r1.1, 1)
    else
      let s2 := { r1.1 with cursorPos := s.doc.length }
      let r2 := editorFindBwd s2
      if r2.2 = true then (r2.1, 2)
      else (r2.1, 2)

/-- C2 (code bug exhibited): on a document `abc` that does not contain the
non-empty search string `x`, the forward search wraps exactly once (two
find attempts) and reports not-found, but the backward search, after
wrapping exactly once, leaves the notification list empty instead of
reporting not-found as the claim states. -/
theorem C2_searchPrev_silent_on_absent :
    (searchNext ⟨['a', 'b', 'c'], ['x'], 1, []⟩).2 = 2 ∧
    (searchNext ⟨['a', 'b', 'c'], ['x'], 1, []⟩).1.notifs =
      [Notif.warning ['x']] ∧
    (searchPrev ⟨['a', 'b', 'c'], ['x'], 1, []⟩).2 = 2 ∧
    (searchPrev ⟨['a', 'b', 'c'], ['x'], 1, []⟩).1.notifs = [] := by
  decide

/-! ## File open and save (`EditorInterface.openFile` / `saveFile`,
main.py lines 339-361)

The Python code is:
```
def openFile(self):
    path, _ = QFileDialog.getOpenFileName(...)
    if path:
        try:
            with open(path, 'r', encoding='utf-8') as f:
                self.editor.setPlainText(f.read())
            self.currentFile = path
            self.showSuccess(...)
        except Exception as e:
            self.showError(str(e))

def saveFile(self):
    if not self.currentFile:
        path, _ = QFileDialog.getSaveFileName(...)
        if not path: return
        self.currentFile = path
    try:
        with open(self.currentFile, 'w', encoding='utf-8') as f:
            f.write(self.editor.toPlainText())
        self.showSuccess(...)
    except Exception as e:
        self.showError(str(e))
```
`open(path, 'r', encoding='utf-8')` decodes UTF-8 and applies universal
newline translation: every CR LF pair and every lone CR in the file's
text becomes LF (`univNewlines`).  `open(path, 'w', encoding='utf-8')`
translates every LF of the written text to `os.linesep` and encodes the
result as UTF-8 (`writeNewlines`, `utf8Encode`).  Paths and exception
payloads are abstracted as numbers; the dialog outcome and the I/O
outcome are passed as parameters; the second numeric result counts the
I/O attempts the operation made. -/

def univNewlines : List Char → List Char
  | [] => []
  | [c] => if c = '\r' then ['\n'] else [c]
  | c :: c2 :: rest =>
    if c = '\r' then
      if c2 = '\n' then '\n' :: univNewlines rest
      else '\n' :: univNewlines (c2 :: rest)
    else c :: univNewlines (c2 :: rest)

def writeNewlines (linesep : List Char) : List Char → List Char
  | [] => []
  | c :: rest =>
    if c = '\n' then linesep ++ writeNewlines linesep rest
    else c :: writeNewlines linesep rest

def utf8EncodeChar (c : Char) : List Nat :=
  let n := c.toNat
  if n < 128 then [n]
  else if n < 2048 then [192 + n / 64, 128 + n % 64]
  else if n < 65536 then
    [224 + n / 4096, 128 + n / 64 % 64, 128 + n % 64]
  else
    [240 + n / 262144, 128 + n / 4096 % 64, 128 + n / 64 % 64, 128 + n % 64]

def utf8Encode (s : List Char) : List Nat :=
  s.foldr (fun c acc => utf8EncodeChar c ++ acc) []

/-- Text handed to `setPlainText` by `f.read()` on a file whose decoded
text is `fileText`. -/
def pythonReadText (fileText : List Char) : List Char :=
  univNewlines fileText

/-- Bytes produced on disk by `f.write(buffer)` in text mode. -/
def pythonWriteBytes (linesep buffer : List Char) : List Nat :=
  utf8Encode (writeNewlines linesep buffer)

structure AppState where
  buffer : List Char
  currentFile : Option Nat
  notifs : List Notif
  deriving DecidableEq

def openFile (s : AppState) (dialogPath : Option Nat)
    (readResult : Except Nat (List Char)) : AppState × Nat :=
  match dialogPath with
  | none => (s, 0)
  | some path =>
    match readResult with
    | Except.ok content =>
      ({ s with
          buffer := content
          currentFile := some path
          notifs := s.notifs ++ [Notif.success path] }, 1)
    | Except.error e =>
      ({ s with notifs := s.notifs ++ [Notif.error e] }, 1)

/-- The path the save writes to: `currentFile` if set, else the dialog's
answer. -/
def saveTarget (s : AppState) (dialogPath : Option Nat) : Option Nat :=
  match s.currentFile with
  | some p => some p
  | none => dialogPath

def saveFile (s : AppState) (dialogPath : Option Nat)
    (writeOutcome : Except Nat Unit) : AppState × Option (List Char) × Nat :=
  match saveTarget s dialogPath with
  | none => (s, none, 0)
  | some path =>
    let s1 := { s with currentFile := some path }
    match writeOutcome with
    | Except.ok _ =>
      ({ s1 with notifs := s1.notifs ++ [Notif.success path] },
        some s1.buffer, 1)
    | Except.error e =>
      ({ s1 with notifs := s1.notifs ++ [Notif.error e] }, none, 1)

/-- Bytes on disk after opening a file whose decoded text is `fileText`
and saving it back with no edits in between, on a platform with line
separator `linesep`; `none` would mean nothing was written. -/
def openThenSave (linesep fileText : List Char) : Option (List Nat) :=
  let s0 : AppState := ⟨[], none, []⟩
  let r1 := openFile s0 (some 0) (Except.ok (pythonReadText fileText))
  let r2 := saveFile r1.1 none (Except.ok ())
  r2.2.1.map (pythonWriteBytes linesep)

theorem univNewlines_eq_self {l : List Char} (h : '\r' ∉ l) :
    univNewlines l = l := by
  induction l with
  | nil => rfl
  | cons c rest ih =>
    have hc : c ≠ '\r' := fun hcr => h (hcr ▸ List.mem_cons_self c rest)
    have hrest : '\r' ∉ rest := fun hr => h (List.mem_cons_of_mem c hr)
    cases rest with
    | nil => rw [univNewlines, if_neg hc]
    | cons c2 rest2 => rw [univNewlines, if_neg hc, ih hrest]

theorem writeNewlines_lf (l : List Char) : writeNewlines ['\n'] l = l := by
  induction l with
  | nil => rfl
  | cons c rest ih =>
    by_cases hc : c = '\n'
    · rw [writeNewlines, if_pos hc, ih, hc]; rfl
    · rw [writeNewlines, if_neg hc, ih]

/-- C1 counterexample: a file whose text is `a CR LF b LF c` is not
reproduced byte-for-byte by open-then-save, neither with LF nor with
CR LF as the platform line separator. -/
theorem C1_counterexample :
    openThenSave ['\n'] ['a', '\r', '\n', 'b', '\n', 'c'] ≠
      some (utf8Encode ['a', '\r', '\n', 'b', '\n', 'c']) ∧
    openThenSave ['\r', '\n'] ['a', '\r', '\n', 'b', '\n', 'c'] ≠
      some (utf8Encode ['a', '\r', '\n', 'b', '\n', 'c']) := by
  decide

/-- C1 (amended): on a platform whose line separator is LF, opening a
file and saving it without edits reproduces the file's bytes exactly
whenever the file's text contains no carriage return; in general the
saved bytes are the UTF-8 encoding of the file's text with newline
translation applied. -/
theorem C1_roundtrip_without_cr (fileText : List Char)
    (h : '\r' ∉ fileText) :
    openThenSave ['\n'] fileText = some (utf8Encode fileText) := by
  show some (pythonWriteBytes ['\n'] (pythonReadText fileText))
      = some (utf8Encode fileText)
  rw [pythonReadText, univNewlines_eq_self h, pythonWriteBytes,
    writeNewlines_lf]

/-- C1 witness: a two-line LF-only file round-trips. -/
theorem C1_witness :
    ('\r' ∉ (['a', '\n', 'b'] : List Char)) ∧
    openThenSave ['\n'] ['a', '\n', 'b'] =
      some (utf8Encode ['a', '\n', 'b']) :=
  ⟨by decide, C1_roundtrip_without_cr ['a', '\n', 'b'] (by decide)⟩

/-- C7: when the underlying I/O of an open or of a save with a resolved
target fails, the exception is caught (both operations are total
functions of the outcome), exactly one error notification is appended,
exactly one I/O attempt is made (no retry), and a failed save writes
nothing. -/
theorem C7_io_error_reported_once (s : AppState) (path e : Nat)
    (dp : Option Nat) (hp : saveTarget s dp = some path) :
    (openFile s (some path) (Except.error e)).1.notifs =
      s.notifs ++ [Notif.error e] ∧
    (openFile s (some path) (Except.error e)).2 = 1 ∧
    (saveFile s dp (Except.error e)).1.notifs =
      s.notifs ++ [Notif.error e] ∧
    (saveFile s dp (Except.error e)).2.1 = none ∧
    (saveFile s dp (Except.error e)).2.2 = 1 := by
  refine ⟨rfl, rfl, ?_, ?_, ?_⟩ <;> rw [saveFile, hp]

/-- C7 witness: a state that already has a current file, failing with
exception code 7. -/
theorem C7_witness :
    saveTarget ⟨['a'], some 3, []⟩ none = some 3 ∧
    ((openFile ⟨['a'], some 3, []⟩ (some 3) (Except.error 7)).1.notifs =
        [Notif.error 7] ∧
      (openFile ⟨['a'], some 3, []⟩ (some 3) (Except.error 7)).2 = 1 ∧
      (saveFile ⟨['a'], some 3, []⟩ none (Except.error 7)).1.notifs =
        [Notif.error 7] ∧
      (saveFile ⟨['a'], some 3, []⟩ none (Except.error 7)).2.1 = none ∧
      (saveFile ⟨['a'], some 3, []⟩ none (Except.error 7)).2.2 = 1) :=
  ⟨by decide, C7_io_error_reported_once ⟨['a'], some 3, []⟩ 3 7 none rfl⟩

/-- C9: opening is atomic with respect to editor state: a failed read
leaves both the buffer and the current-file path unchanged, and a
successful read sets the buffer to the read content and the current-file
path to the chosen path. -/
theorem C9_open_atomic (s : AppState) (path e : Nat) (content : List Char) :
    ((openFile s (some path) (Except.error e)).1.buffer = s.buffer ∧
      (openFile s (some path) (Except.error e)).1.currentFile =
        s.currentFile) ∧
    ((openFile s (some path) (Except.ok content)).1.buffer = content ∧
      (openFile s (some path) (Except.ok content)).1.currentFile =
        some path) :=
  ⟨⟨rfl, rfl⟩, ⟨rfl, rfl⟩⟩

end Notepad
